import Mathlib

/-!
Shallow embedding of the MessageMind Analysis Orchestration + Semantic Index
subsystem (src/lib/ai.ts, src/lib/geminiAI.ts, src/pages/api/ai/geminiAI.ts),
together with proofs about the embedded operations.

Modelling conventions:
- JavaScript `Date` values are modelled by their millisecond epoch value (ℤ,
  `Date.prototype.getTime`); `Date.now()` becomes an explicit `now : ℤ`
  parameter.
- JavaScript numbers that only ever hold small integers are ℕ/ℤ; the few
  floating-point quantities (cosine similarities, embedding coordinates) are
  idealised as ℝ, and fractional thresholds such as `0.3` as exact rationals.
- JavaScript strings are Lean `String`s.  `String.prototype.includes` becomes
  infix search on the character list, `split(/\s+/)` becomes
  whitespace-splitting (every use site in the source discards empty tokens by
  a length filter or a non-empty substring test, so collapsing the empty
  boundary tokens that the JS regex split can produce is observationally
  identical there).  `.length` counts code points rather than UTF-16 units;
  no proved property depends on the difference.
- `Array.prototype.sort` is required to be stable by the ECMAScript
  specification, so it is modelled by `List.insertionSort`, which inserts each
  element in front of the first tied element of the already-sorted suffix and
  is therefore stable in the same sense.
- JavaScript object literals keyed by strings (`Record<string, …>`) are
  modelled as association lists in first-insertion order.  (ECMAScript orders
  canonical-integer keys first; room labels and topic words are treated as
  non-numeric strings, and no proved property depends on enumeration order.)
- Network effects are made explicit: a provider is a function from the request
  data to the response the provider would give (or, for the retrying adapter,
  a function from the attempt number to the outcome of that attempt), and the
  embedding-service call inside the vector store is a parameter
  `embed : List String → List (List ℝ)`.
-/

/-- Sentiment labels, the union type `'positive' | 'neutral' | 'negative'`. -/
inductive Sentiment where
  | positive
  | neutral
  | negative
deriving DecidableEq, Repr

/-- Priority labels, the union type `'high' | 'medium' | 'low'`. -/
inductive Priority where
  | high
  | medium
  | low
deriving DecidableEq, Repr

/-- The `ProcessedMessage` interface of src/lib/ai.ts. -/
structure ProcessedMessage where
  id : String
  content : String
  sender : String
  timestamp : ℤ
  roomName : String
  isWhatsApp : Bool
deriving DecidableEq, Repr

/-- The `ConversationSummary` interface of src/lib/ai.ts (the spec's
`AnalysisResult`). -/
structure ConversationSummary where
  date : String
  roomName : String
  messageCount : ℕ
  participants : List String
  summary : String
  keyTopics : List String
  sentiment : Sentiment
  priority : Priority
  insights : List String
  patterns : List String
  actionItems : List String
deriving DecidableEq, Repr

/-! ### String helpers shared by the embedded functions -/

/-- JavaScript `s.includes(pat)`: `pat` occurs contiguously in `s`. -/
def strContains (s pat : String) : Bool :=
  decide (List.IsInfix pat.toList s.toList)

/-- JavaScript `s.toLowerCase()` (ASCII case folding suffices for the
keyword lists of the source). -/
def strLower (s : String) : String :=
  s.map Char.toLower

/-- Number of occurrences of a character, the length of
`(s.match(/c/g) || [])`. -/
def countChar (s : String) (c : Char) : ℕ :=
  s.toList.count c

/-- The words of `s` as produced by `s.split(/\s+/)`, with empty boundary
tokens dropped (see the module conventions). -/
def wordsOf (s : String) : List String :=
  (s.split (fun c => c.isWhitespace)).filter (fun w => w != "")

/-- JavaScript `line.split(':')[0]`. -/
def linePrefixBeforeColon (line : String) : String :=
  (line.splitOn ":").headD ""

/-- JavaScript `line.split(':').slice(1).join(':')`: everything after the
first colon, empty when there is none. -/
def lineAfterColon (line : String) : String :=
  String.intercalate ":" ((line.splitOn ":").drop 1)

/-- JavaScript `s.replace(pat, sub)` with a string pattern: replace only the
first occurrence. -/
def replaceFirst (s pat sub : String) : String :=
  match s.splitOn pat with
  | [] => s
  | [_] => s
  | p :: ps => p ++ sub ++ String.intercalate pat ps

/-- JavaScript `roomName.replace(/\s*\(WA\)\s*$/, '').trim()`: drop one
trailing `(WA)` tag together with the whitespace around it, then trim. -/
def cleanRoomName (s : String) : String :=
  let t := s.trimRight
  (if t.endsWith "(WA)" then (t.dropRight 4).trimRight else s).trim

/-- Insertion-order deduplication: `Array.from(new Set(l))`. -/
def distinctInOrder (l : List String) : List String :=
  l.foldl (fun acc x => if acc.contains x then acc else acc ++ [x]) []

/-! ### Heuristic Engine (src/lib/ai.ts lines 614-863) -/

/-- The stop list of `analyzeContentNaturally`. -/
def commonFillerWords : List String :=
  ["this", "that", "with", "from", "they", "were", "been", "have", "will",
   "would", "could", "should"]

/-- Descending stable sort of `(word, count)` pairs, the JS
`entries.sort(([,a],[,b]) => b - a)`. -/
def sortPairsByCountDesc (pairs : List (String × ℕ)) : List (String × ℕ) :=
  List.insertionSort (fun a b => b.2 ≤ a.2) pairs

/-- Result record of `analyzeContentNaturally`. -/
structure ContentAnalysis where
  primaryTopic : Option String
  tone : String
deriving DecidableEq, Repr

/-- `analyzeContentNaturally` of src/lib/ai.ts: dominant word and coarse
tone of the joined lowercase text. -/
def analyzeContentNaturally (text : String) : ContentAnalysis :=
  let words := wordsOf text
  let meaningfulWords := words.filter
    (fun w => decide (3 < w.length) && !(commonFillerWords.contains w))
  let freqPairs := (distinctInOrder meaningfulWords).map
    (fun w => (w, meaningfulWords.count w))
  let topWords := ((sortPairsByCountDesc freqPairs).take 3).map Prod.fst
  let primaryTopic :=
    match topWords.head? with
    | some w => if 2 < meaningfulWords.count w then some w else none
    | none => none
  let positiveIndicators := ["good", "great", "thanks", "love", "happy", "excellent"]
  let negativeIndicators := ["bad", "problem", "issue", "wrong", "difficult", "frustrated"]
  let positiveCount := positiveIndicators.countP (fun w => strContains text w)
  let negativeCount := negativeIndicators.countP (fun w => strContains text w)
  let tone :=
    if negativeCount + 1 < positiveCount then "positive"
    else if positiveCount + 1 < negativeCount then "negative"
    else "neutral"
  { primaryTopic := primaryTopic, tone := tone }

/-- `analyzeInteractionStyle` of src/lib/ai.ts.  The fractional thresholds
`0.3` and `0.6` are exact rationals here (the source compares against IEEE
doubles; the rounding of `0.3`/`0.6` is idealised away). -/
def analyzeInteractionStyle (lines : List String) : String :=
  let n := lines.length
  let avgLength : ℚ := ((lines.map (fun l => (l.length : ℚ))).sum) / n
  let questionCount := lines.countP (fun l => strContains l "?")
  let shortResponses := lines.countP
    (fun l => decide ((lineAfterColon l).trim.length < 20))
  if (3 : ℚ) / 10 * n < questionCount then "Q&A session"
  else if (6 : ℚ) / 10 * n < shortResponses then "Quick exchange"
  else if 100 < avgLength then "Detailed discussion"
  else "Conversation"

/-- `generateNaturalLanguageSummary` of src/lib/ai.ts: the heuristic
summary over the formatted conversation text. -/
def generateNaturalLanguageSummary (conversationText : String) : String :=
  let lines := (conversationText.splitOn "\n").filter (fun l => strContains l ":")
  let messageCount := lines.length
  let participants := (distinctInOrder (lines.map linePrefixBeforeColon)).length
  if messageCount < 3 then "Brief conversation exchange."
  else
    let allText := strLower (String.intercalate " " (lines.map lineAfterColon))
    let contentAnalysis := analyzeContentNaturally allText
    let interactionStyle := analyzeInteractionStyle lines
    let base := interactionStyle ++ " between " ++ toString participants ++
      " participant" ++ (if 1 < participants then "s" else "") ++ " "
    let withTopic :=
      match contentAnalysis.primaryTopic with
      | some t => base ++ "focusing on " ++ t
      | none => base ++ "covering various topics"
    let withTone :=
      if contentAnalysis.tone != "neutral" then
        withTopic ++ " with a " ++ contentAnalysis.tone ++ " tone"
      else withTopic
    if 20 < messageCount then
      withTone ++ ". Extended discussion with " ++ toString messageCount ++ " messages."
    else withTone ++ "."

/-- Positive keyword list of `generateSentimentAnalysis`. -/
def positiveWords : List String :=
  ["good", "great", "awesome", "love", "happy", "thanks", "excellent",
   "amazing", "perfect"]

/-- Negative keyword list of `generateSentimentAnalysis`. -/
def negativeWords : List String :=
  ["bad", "awful", "hate", "angry", "sad", "terrible", "horrible",
   "frustrated", "upset"]

/-- `generateSentimentAnalysis` of src/lib/ai.ts: keyword counting over the
lowercased words; a word scores once if any keyword is a substring of it. -/
def generateSentimentAnalysis (text : String) : Sentiment :=
  let words := wordsOf (strLower text)
  let positiveScore := words.countP (fun w => positiveWords.any (fun pw => strContains w pw))
  let negativeScore := words.countP (fun w => negativeWords.any (fun nw => strContains w nw))
  if negativeScore + 1 < positiveScore then .positive
  else if positiveScore + 1 < negativeScore then .negative
  else .neutral

/-- One step of the JS `replace(/[^\w\s]/g, ' ')`: keep word characters and
whitespace, blank out everything else. -/
def keepWordCharOrSpace (c : Char) : Char :=
  if c.isAlphanum || c = '_' || c.isWhitespace then c else ' '

/-- `generateTopicsNaturally` of src/lib/ai.ts: top 5 words of length > 4 by
frequency. -/
def generateTopicsNaturally (text : String) : List String :=
  let cleaned := (strLower text).map keepWordCharOrSpace
  let words := (wordsOf cleaned).filter (fun w => decide (4 < w.length))
  let freqPairs := (distinctInOrder words).map (fun w => (w, words.count w))
  ((sortPairsByCountDesc freqPairs).take 5).map Prod.fst

/-- The question mark character. -/
def qmark : Char := '?'

/-- `generateContextualInsights` of src/lib/ai.ts: at most three remarks
derived from time span, average message length and question density. -/
def generateContextualInsights (conversationText : String)
    (messages : List ProcessedMessage) : List String :=
  let messageCount := messages.length
  let timeSpan : ℤ :=
    if 1 < messages.length then
      ((messages.getLast?.map (fun m => m.timestamp)).getD 0) -
        ((messages.head?.map (fun m => m.timestamp)).getD 0)
    else 0
  let timingInsights : List String :=
    if 0 < timeSpan then
      let hours : ℚ := (timeSpan : ℚ) / 3600000
      if hours < 1 then ["Rapid-fire conversation with quick responses"]
      else if 24 < hours then ["Extended conversation spanning multiple days"]
      else []
    else []
  let avgMessageLength : ℚ := (conversationText.length : ℚ) / messageCount
  let lengthInsights : List String :=
    if 100 < avgMessageLength then ["Participants tend to send detailed messages"]
    else if avgMessageLength < 30 then ["Brief, concise communication style"]
    else []
  let questionCount := countChar conversationText qmark
  let questionInsights : List String :=
    if (3 : ℚ) / 10 * messageCount < (questionCount : ℚ) then
      ["High level of inquiry and information seeking"]
    else []
  (timingInsights ++ lengthInsights ++ questionInsights).take 3

/-- `analyzeConversationPatterns` of src/lib/ai.ts: at most three remarks
derived from inter-message gaps and the sender set. -/
def analyzeConversationPatterns (messages : List ProcessedMessage) : List String :=
  if messages.length < 2 then []
  else
    let timeGaps : List ℤ := ((messages.zip (messages.drop 1)).map
      (fun p => p.2.timestamp - p.1.timestamp))
    let avgGap : ℚ := ((timeGaps.map (fun g => (g : ℚ))).sum) / timeGaps.length
    let gapPatterns : List String :=
      if avgGap < 60000 then ["Real-time conversation with immediate responses"]
      else if 3600000 < avgGap then ["Asynchronous communication with delayed responses"]
      else []
    let participantsCount := (distinctInOrder (messages.map (fun m => m.sender))).length
    let senderPatterns : List String :=
      if participantsCount = 1 then ["Monologue or series of messages from single sender"]
      else if 3 < participantsCount then ["Multi-participant group discussion"]
      else []
    (gapPatterns ++ senderPatterns).take 3

/-- Action indicator phrases of `extractActionItemsHeuristic`. -/
def actionIndicators : List String :=
  ["need to", "should", "will", "going to", "plan to", "have to",
   "let me", "i\x27ll", "we\x27ll", "can you", "could you", "please"]

/-- `extractActionItemsHeuristic` of src/lib/ai.ts.  Note the source pushes
the same line once per matching indicator. -/
def extractActionItemsHeuristic (conversationText : String) : List String :=
  let lines := conversationText.splitOn "\n"
  let actionItems := lines.foldr
    (fun line acc =>
      let content := strLower (lineAfterColon line)
      ((actionIndicators.filter (fun ind =>
          strContains content ind && decide (20 < content.length) &&
            decide (content.length < 100))).map
        (fun _ => content.trim)) ++ acc)
    []
  actionItems.take 3

/-- Urgent keyword list of `calculatePriorityHeuristic`. -/
def urgentWords : List String :=
  ["urgent", "asap", "emergency", "important", "critical"]

/-- One day in milliseconds. -/
def oneDayMs : ℤ := 86400000

/-- `calculatePriorityHeuristic` of src/lib/ai.ts lines 796-818: the keyword
and volume based priority score mapped to a label. -/
def calculatePriorityHeuristic (conversationText : String)
    (messages : List ProcessedMessage) (now : ℤ) : Priority :=
  let text := strLower conversationText
  let keywordScore : ℕ := urgentWords.foldl
    (fun acc w => if strContains text w then acc + 2 else acc) 0
  let withVolume := if 20 < messages.length then keywordScore + 1 else keywordScore
  let withQuestions :=
    if 3 < countChar conversationText qmark then withVolume + 1 else withVolume
  let recentMessages :=
    (messages.filter (fun m => decide (now - m.timestamp < oneDayMs))).length
  let score := if 10 < recentMessages then withQuestions + 1 else withQuestions
  if 3 ≤ score then .high
  else if 1 ≤ score then .medium
  else .low

/-! ### Formatting and grouping (src/lib/ai.ts lines 954-1031) -/

/-- `formatMessagesForAI` of src/lib/ai.ts: keep the last 15 messages, drop
command/system/short messages, address each line by the cleaned room name
(falling back to `User`), and join with newlines. -/
def formatMessagesForAI (messages : List ProcessedMessage) : String :=
  let recentMessages := messages.drop (messages.length - 15)
  let lines := recentMessages.filterMap (fun msg =>
    let content := msg.content.trim
    if content.startsWith "!" || strContains content "bridged" || content.length < 3 then
      none
    else
      let cleaned := cleanRoomName msg.roomName
      let senderName := if cleaned = "" then "User" else cleaned
      some (senderName ++ ": " ++ content))
  String.intercalate "\n" lines

/-- `extractParticipants` of src/lib/ai.ts: distinct cleaned room names,
skipping empty names and the placeholder `Contact`. -/
def extractParticipants (messages : List ProcessedMessage) : List String :=
  distinctInOrder ((messages.map (fun m => cleanRoomName m.roomName)).filter
    (fun n => !(n == "") && !(n == "Contact")))

/-- `groupMessagesByRoom` of src/lib/ai.ts: keep the messages of the target
date (the timezone-dependent `toDateString` comparison is the parameter
`sameDate`) and bucket them by room name in first-occurrence order. -/
def groupMessagesByRoom (sameDate : ℤ → Bool) (messages : List ProcessedMessage) :
    List (String × List ProcessedMessage) :=
  let filtered := messages.filter (fun m => sameDate m.timestamp)
  filtered.foldl
    (fun groups msg =>
      if groups.any (fun g => g.1 == msg.roomName) then
        groups.map (fun g => if g.1 == msg.roomName then (g.1, g.2 ++ [msg]) else g)
      else groups ++ [(msg.roomName, [msg])])
    []

/-- `getPriorityWeight` of src/lib/ai.ts lines 1105-1112 (the `default`
branch of the source's `switch` is unreachable for the union type). -/
def getPriorityWeight : Priority → ℕ
  | .high => 3
  | .medium => 2
  | .low => 1

/-- The comparator-induced order of `sort((a, b) => weight(b) - weight(a))`:
`a` may precede `b` exactly when `a`'s weight is at least `b`'s. -/
def priorityGe {α : Type} (getP : α → Priority) (a b : α) : Prop :=
  getPriorityWeight (getP b) ≤ getPriorityWeight (getP a)

instance {α : Type} (getP : α → Priority) : DecidableRel (priorityGe getP) :=
  fun a b => Nat.decLe (getPriorityWeight (getP b)) (getPriorityWeight (getP a))

instance {α : Type} (getP : α → Priority) : IsTotal α (priorityGe getP) :=
  ⟨fun a b => le_total (getPriorityWeight (getP b)) (getPriorityWeight (getP a))⟩

instance {α : Type} (getP : α → Priority) : IsTrans α (priorityGe getP) :=
  ⟨fun _ _ _ h1 h2 => le_trans h2 h1⟩

/-- The final `summaries.sort((a, b) => weight(b.priority) - weight(a.priority))`
of `generateDailySummary`, as a stable descending sort. -/
def sortByPriorityWeight {α : Type} (getP : α → Priority) (l : List α) : List α :=
  List.insertionSort (priorityGe getP) l

/-- `generateFallbackSummary` of src/lib/ai.ts. -/
def generateFallbackSummary (messages : List ProcessedMessage) : String :=
  generateNaturalLanguageSummary (formatMessagesForAI messages)

/-- `generateFallbackTopics` of src/lib/ai.ts. -/
def generateFallbackTopics (messages : List ProcessedMessage) : List String :=
  generateTopicsNaturally (formatMessagesForAI messages)

/-- The summary record built by the zero-provider branch of
`generateDailySummary` (src/lib/ai.ts lines 131-141): every field comes from
the Heuristic Engine. -/
def mkHeuristicSummary (now : ℤ) (date : String) (roomName : String)
    (roomMessages : List ProcessedMessage) : ConversationSummary :=
  let conversationText := formatMessagesForAI roomMessages
  { date := date
    roomName := roomName
    messageCount := roomMessages.length
    participants := extractParticipants roomMessages
    summary := generateFallbackSummary roomMessages
    keyTopics := generateFallbackTopics roomMessages
    sentiment := generateSentimentAnalysis conversationText
    priority := calculatePriorityHeuristic conversationText roomMessages now
    insights := generateContextualInsights conversationText roomMessages
    patterns := analyzeConversationPatterns roomMessages
    actionItems := extractActionItemsHeuristic conversationText }

/-- `generateDailySummary` of src/lib/ai.ts lines 121-196 in the
zero-provider configuration (no Gemini, GPT or Hugging Face key): the guard
`useApiRoute && (hfFailed || !hfApiKey) && !gpt` on line 131 is then true for
every room, so each room takes the all-heuristic branch, and the result list
is sorted by priority weight.  Totality of this function is the embedded form
of the source's never-throws contract on this path. -/
def generateDailySummary (now : ℤ) (sameDate : ℤ → Bool)
    (messages : List ProcessedMessage) (date : String) : List ConversationSummary :=
  let rooms := groupMessagesByRoom sameDate messages
  let summaries := (rooms.filter (fun g => !(g.2.isEmpty))).map
    (fun g => mkHeuristicSummary now date g.1 g.2)
  sortByPriorityWeight (fun s => s.priority) summaries

/-! ### Conversation Segmenter (src/lib/ai.ts lines 969-999) -/

/-- One hour in milliseconds, the segmentation window constant. -/
def oneHour : ℤ := 3600000

/-- Timestamp order used by `messages.sort((a, b) => a.ts - b.ts)`. -/
def tsLe (a b : ProcessedMessage) : Prop :=
  a.timestamp ≤ b.timestamp

instance : DecidableRel tsLe := fun a b => Int.decLe a.timestamp b.timestamp

instance : IsTotal ProcessedMessage tsLe :=
  ⟨fun a b => le_total a.timestamp b.timestamp⟩

instance : IsTrans ProcessedMessage tsLe :=
  ⟨fun _ _ _ => le_trans⟩

/-- The stable timestamp sort at the head of `groupMessagesByConversation`. -/
def sortMessagesByTimestamp (l : List ProcessedMessage) : List ProcessedMessage :=
  List.insertionSort tsLe l

/-- The grouping loop of `groupMessagesByConversation`: walk the sorted
messages, starting a new group whenever the gap to the previous message
exceeds one hour or the room changes.  `currentGroup`, `lastTimestamp`
(initially 0) and `lastRoom` (initially the empty string) mirror the mutable
loop state of the source. -/
def segLoop : List ProcessedMessage → List ProcessedMessage → ℤ → String →
    List (List ProcessedMessage) → List (List ProcessedMessage)
  | [], currentGroup, _, _, groups =>
      if currentGroup.isEmpty then groups else groups ++ [currentGroup]
  | msg :: rest, currentGroup, lastTimestamp, lastRoom, groups =>
      if oneHour < msg.timestamp - lastTimestamp ∨ msg.roomName ≠ lastRoom then
        segLoop rest [msg] msg.timestamp msg.roomName
          (if currentGroup.isEmpty then groups else groups ++ [currentGroup])
      else
        segLoop rest (currentGroup ++ [msg]) msg.timestamp msg.roomName groups

/-- `groupMessagesByConversation` of src/lib/ai.ts lines 969-999: sort by
timestamp, split at hour-sized gaps or room changes, and keep only groups of
at least 3 messages. -/
def groupMessagesByConversation (messages : List ProcessedMessage) :
    List (List ProcessedMessage) :=
  (segLoop (sortMessagesByTimestamp messages) [] 0 "" []).filter
    (fun g => decide (3 ≤ g.length))

/-! ### Vector Index (src/lib/geminiAI.ts, MessageMindVectorStorage, the
API-route revision: addMessages lines 778-845, cosineSimilarity 848-863,
semanticSearch 866-898, getStats 919-956) -/

/-- The `'whatsapp' | 'matrix'` union of the vector store metadata. -/
inductive MessageType where
  | whatsapp
  | matrix
deriving DecidableEq, Repr

/-- Metadata attached to a stored vector record. -/
structure VectorMetadata where
  sender : String
  roomName : String
  timestamp : ℤ
  messageType : MessageType

/-- The `VectorEntry` interface: one stored record.  Embedding coordinates
are idealised reals (the source uses IEEE doubles). -/
structure VectorEntry where
  id : String
  content : String
  embedding : List ℝ
  metadata : VectorMetadata

/-- The `SearchResult` interface. -/
structure SearchResult where
  content : String
  similarity : ℝ
  metadata : VectorMetadata

/-- A raw batch entry handed to `addMessages`. -/
structure RawMessage where
  id : String
  content : String
  sender : String
  roomName : String
  timestamp : ℤ
  messageType : MessageType

/-- The batch validity filter of `addMessages` (lines 789-795): the trimmed
content must have at least 3 characters and must not look like a bridge or
command message. -/
def isValidMessage (content : String) : Bool :=
  let c := content.trim
  decide (3 ≤ c.length) && !(c.startsWith "!") && !(strContains c "bridged") &&
    !(strContains c "WhatsApp bridge bot")

/-- Metadata normalisation on insert:
`sender.split(':')[0].replace('@', '').replace('whatsapp_', '')` and the
`(WA)` suffix strip on the room name. -/
def mkVectorMetadata (sender roomName : String) (timestamp : ℤ)
    (messageType : MessageType) : VectorMetadata :=
  { sender := replaceFirst (replaceFirst ((sender.splitOn ":").headD "") "@" "")
      "whatsapp_" ""
    roomName := cleanRoomName roomName
    timestamp := timestamp
    messageType := messageType }

/-- `addMessages` of the vector store: filter the batch, obtain one embedding
per valid content from the embedding service `embed` (whose internal
`generateEmbeddings` absorbs its own errors and falls back to mock vectors,
so the service is modelled as a total function), and append one record per
valid entry.  `embeddings[index]` is looked up by position exactly as in the
source. -/
def addMessages (embed : List String → List (List ℝ))
    (vectors : List VectorEntry) (messages : List RawMessage) : List VectorEntry :=
  let validMessages := messages.filter (fun m => isValidMessage m.content)
  if validMessages.isEmpty then vectors
  else
    let texts := validMessages.map (fun m => m.content)
    let embeddings := embed texts
    vectors ++ validMessages.enum.map (fun p =>
      { id := p.2.id
        content := p.2.content
        embedding := embeddings.getD p.1 []
        metadata := mkVectorMetadata p.2.sender p.2.roomName p.2.timestamp
          p.2.messageType })

/-- Dot product accumulated over paired coordinates. -/
noncomputable def dotProduct (a b : List ℝ) : ℝ :=
  ((a.zip b).map (fun p => p.1 * p.2)).sum

/-- The accumulated `normA`/`normB` sums of squares of `cosineSimilarity`. -/
noncomputable def normSq (a : List ℝ) : ℝ :=
  (a.map (fun x => x * x)).sum

/-- `cosineSimilarity` of the vector store (lines 848-863): 0 on dimension
mismatch, 0 when the product of the two norms is 0, and the normalised dot
product otherwise. -/
noncomputable def cosineSimilarity (a b : List ℝ) : ℝ :=
  if a.length ≠ b.length then 0
  else
    let dotP := dotProduct a b
    let norm := Real.sqrt (normSq a) * Real.sqrt (normSq b)
    if norm = 0 then 0 else dotP / norm

/-- Descending-similarity order of `sort((a, b) => b.similarity - a.similarity)`. -/
def simGe (a b : SearchResult) : Prop :=
  b.similarity ≤ a.similarity

noncomputable instance : DecidableRel simGe :=
  fun a b => Real.decidableLE b.similarity a.similarity

instance : IsTotal SearchResult simGe :=
  ⟨fun a b => le_total b.similarity a.similarity⟩

instance : IsTrans SearchResult simGe :=
  ⟨fun _ _ _ h1 h2 => le_trans h2 h1⟩

/-- `semanticSearch` of the vector store (lines 866-898), with the query
already embedded (the query embedding comes from the same absorbed-failure
embedding service): brute-force cosine similarity against every record,
floor filter at 0.1, stable descending sort, and the `slice(0, limit)` cut. -/
noncomputable def semanticSearch (queryEmbedding : List ℝ)
    (vectors : List VectorEntry) (limit : ℕ) : List SearchResult :=
  if vectors.isEmpty then []
  else
    let results := vectors.map (fun v =>
      SearchResult.mk v.content (cosineSimilarity queryEmbedding v.embedding)
        v.metadata)
    ((List.insertionSort simGe
        (results.filter (fun r => decide ((1 : ℝ) / 10 < r.similarity)))).take limit)

/-- The record returned by `getStats` (lines 919-956). -/
structure VectorStats where
  totalMessages : ℕ
  messagesByType : MessageType → ℕ
  messagesByRoom : String → ℕ
  oldestMessage : Option ℤ
  newestMessage : Option ℤ

/-- `getStats` of the vector store: pure aggregation over the record list.
The `Record<string, number>` tallies are modelled as count functions. -/
def getStats (vectors : List VectorEntry) : VectorStats :=
  { totalMessages := vectors.length
    messagesByType := fun t =>
      (vectors.filter (fun v => v.metadata.messageType == t)).length
    messagesByRoom := fun room =>
      (vectors.filter (fun v => v.metadata.roomName == room)).length
    oldestMessage := vectors.foldl
      (fun acc v =>
        match acc with
        | none => some v.metadata.timestamp
        | some o => if v.metadata.timestamp < o then some v.metadata.timestamp else some o)
      none
    newestMessage := vectors.foldl
      (fun acc v =>
        match acc with
        | none => some v.metadata.timestamp
        | some o => if o < v.metadata.timestamp then some v.metadata.timestamp else some o)
      none }

/-! ### Parsed provider responses (src/lib/geminiAI.ts lines 112-133) -/

/-- Parsed JSON values, the result of `JSON.parse` on the substring matched
by `/\x7b[\s\S]*\x7d/` in a generative provider response. -/
inductive JValue where
  | null : JValue
  | bool (b : Bool) : JValue
  | num (q : ℚ) : JValue
  | str (s : String) : JValue
  | arr (elems : List JValue) : JValue
  | obj (fields : List (String × JValue)) : JValue

/-- JavaScript property access `parsed.k` on a parsed object. -/
def jGetField : JValue → String → Option JValue
  | .obj fields, k => (fields.find? (fun f => f.1 == k)).map (fun f => f.2)
  | _, _ => none

/-- `Array.isArray(parsed.k) ? parsed.k : []`. -/
def jGetArr (v : JValue) (k : String) : List JValue :=
  match jGetField v k with
  | some (.arr xs) => xs
  | _ => []

/-- `parsed.k || dflt` for the summary field: a non-empty string passes,
anything else yields the default.  (A non-string truthy value would flow
through untyped in JS; no proved property depends on that corner.) -/
def jStringOr (v : Option JValue) (dflt : String) : String :=
  match v with
  | some (.str s) => if s = "" then dflt else s
  | _ => dflt

/-- The sentiment whitelist check
`['positive','neutral','negative'].includes(parsed.sentiment)`. -/
def jSentiment (v : Option JValue) : Sentiment :=
  match v with
  | some (.str "positive") => .positive
  | some (.str "negative") => .negative
  | some (.str "neutral") => .neutral
  | _ => .neutral

/-- The priority whitelist check
`['high','medium','low'].includes(parsed.priority)`. -/
def jPriority (v : Option JValue) : Priority :=
  match v with
  | some (.str "high") => .high
  | some (.str "low") => .low
  | some (.str "medium") => .medium
  | _ => .medium

/-- The structured analysis returned by `GeminiAI.generateDailySummary` of
src/lib/geminiAI.ts.  The array fields keep the raw parsed elements: the
source copies `parsed.keyTopics` etc. without truncation or element
validation. -/
structure GeminiDaily where
  summary : String
  keyTopics : List JValue
  sentiment : Sentiment
  priority : Priority
  insights : List JValue
  patterns : List JValue
  actionItems : List JValue

/-- The merge of a successfully parsed Gemini JSON object into the analysis
record (src/lib/geminiAI.ts lines 116-125): enum fields are whitelisted,
array fields are passed through unchanged. -/
def geminiParseDailySummary (parsed : JValue) : GeminiDaily :=
  { summary := jStringOr (jGetField parsed "summary") "Conversation summary not available"
    keyTopics := jGetArr parsed "keyTopics"
    sentiment := jSentiment (jGetField parsed "sentiment")
    priority := jPriority (jGetField parsed "priority")
    insights := jGetArr parsed "insights"
    patterns := jGetArr parsed "patterns"
    actionItems := jGetArr parsed "actionItems" }

/-- A summary pushed on the Gemini path of `generateDailySummary`
(src/lib/ai.ts lines 145-161): the orchestrator record spread together with
the provider analysis `{date, roomName, messageCount, participants,
...geminiAnalysis}`. -/
structure GeminiPathSummary where
  date : String
  roomName : String
  messageCount : ℕ
  participants : List String
  summary : String
  keyTopics : List JValue
  sentiment : Sentiment
  priority : Priority
  insights : List JValue
  patterns : List JValue
  actionItems : List JValue

/-- `generateDailySummary` of src/lib/ai.ts in the configuration where
Gemini is available and returns, for each conversation text, a response
whose extracted JSON object parses to `gemini conversationText`: every room
takes the branch of lines 145-161 and the provider analysis is merged
verbatim. -/
def generateDailySummaryGeminiPath (sameDate : ℤ → Bool)
    (gemini : String → JValue) (messages : List ProcessedMessage)
    (date : String) : List GeminiPathSummary :=
  let rooms := groupMessagesByRoom sameDate messages
  let summaries := (rooms.filter (fun g => !(g.2.isEmpty))).map (fun g =>
    let conversationText := formatMessagesForAI g.2
    let ga := geminiParseDailySummary (gemini conversationText)
    { date := date
      roomName := g.1
      messageCount := g.2.length
      participants := extractParticipants g.2
      summary := ga.summary
      keyTopics := ga.keyTopics
      sentiment := ga.sentiment
      priority := ga.priority
      insights := ga.insights
      patterns := ga.patterns
      actionItems := ga.actionItems })
  sortByPriorityWeight (fun s => s.priority) summaries

/-! ### Provider adapters and retry behaviour (src/lib/ai.ts lines 80-119,
src/pages/api/ai/geminiAI.ts lines 236-255) -/

/-- The possible outcomes of the single `fetch('/api/ai/huggingface', …)`
performed by `callHuggingFaceAPI`. -/
inductive HFOutcome where
  | ok (result : JValue) : HFOutcome
  | httpError (status : ℕ) : HFOutcome
  | badJson : HFOutcome
  | networkError (message : String) : HFOutcome

/-- What one call to `callHuggingFaceAPI` produces: the value returned or
the error thrown, the resulting `hfFailed` flag, and the number of fetches
performed. -/
structure HFCallResult where
  outcome : Except String JValue
  hfFailed : Bool
  fetchAttempts : ℕ

/-- `callHuggingFaceAPI` of src/lib/ai.ts lines 80-119: it performs exactly
one fetch (there is no retry loop in this adapter), returns `data.result` on
success, and on any failure sets the sticky `hfFailed` flag and rethrows. -/
def callHuggingFaceAPI (hfFailed : Bool) (response : HFOutcome) : HFCallResult :=
  match response with
  | .ok v => { outcome := .ok v, hfFailed := hfFailed, fetchAttempts := 1 }
  | .httpError status =>
      { outcome := .error ("API route error: " ++ toString status)
        hfFailed := true, fetchAttempts := 1 }
  | .badJson =>
      { outcome := .error "Invalid JSON from Hugging Face API route"
        hfFailed := true, fetchAttempts := 1 }
  | .networkError msg =>
      { outcome := .error msg, hfFailed := true, fetchAttempts := 1 }

/-- The backoff slept after the failed attempt numbered `attempt` in
`callGeminiWithRetry`: `Math.pow(2, attempt) * 200` milliseconds. -/
def geminiBackoffMs (attempt : ℕ) : ℕ :=
  2 ^ attempt * 200

/-- The `while (attempt < attempts)` loop of `callGeminiWithRetry`
(src/pages/api/ai/geminiAI.ts lines 236-255) over an oracle giving the
outcome of each attempt.  Returns the result together with the list of
backoffs slept; the loop sleeps once after every failed attempt, including
the last, and rethrows the last error when all attempts fail. -/
def callGeminiWithRetryGo (oracle : ℕ → Except String String) :
    ℕ → ℕ → Option String → Except String String × List ℕ
  | _, 0, lastError =>
      (.error (lastError.getD "Gemini call failed after retries"), [])
  | attempt, remaining + 1, _ =>
      match oracle attempt with
      | .ok content => (.ok content, [])
      | .error err =>
          let rest := callGeminiWithRetryGo oracle (attempt + 1) remaining (some err)
          (rest.1, geminiBackoffMs (attempt + 1) :: rest.2)

/-- `callGeminiWithRetry` with its default of 3 attempts. -/
def callGeminiWithRetry (oracle : ℕ → Except String String) :
    Except String String × List ℕ :=
  callGeminiWithRetryGo oracle 0 3 none

/-! ### Helper lemmas -/

/-- Accumulating 2 per keyword hit is twice the hit count. -/
theorem foldl_add_two_eq_countP (t : String) (l : List String) (acc : ℕ) :
    l.foldl (fun a w => if strContains t w then a + 2 else a) acc =
      acc + 2 * l.countP (fun w => strContains t w) := by
  induction l generalizing acc with
  | nil => simp
  | cons w ws ih =>
    simp only [List.foldl_cons, List.countP_cons]
    by_cases h : strContains t w
    · rw [if_pos h, ih]
      simp [h]
      ring
    · rw [if_neg h, ih]
      simp [h]

/-- Sums of squares of reals are nonnegative. -/
theorem normSq_nonneg (a : List ℝ) : 0 ≤ normSq a := by
  refine List.sum_nonneg ?_
  intro x hx
  obtain ⟨y, _, rfl⟩ := List.mem_map.mp hx
  exact mul_self_nonneg y

/-- C7: the heuristic priority is exactly the scored formula
`2 × (urgent keyword hits) + (messageCount > 20) + (question marks > 3) +
(messages in the last 24h > 10)`, mapped to `high` at score ≥ 3, `medium`
at score ≥ 1, and `low` otherwise. -/
theorem calculatePriorityHeuristic_score_spec (conversationText : String)
    (messages : List ProcessedMessage) (now : ℤ) :
    calculatePriorityHeuristic conversationText messages now =
      (let score :=
        2 * urgentWords.countP (fun w => strContains (strLower conversationText) w) +
        (if 20 < messages.length then 1 else 0) +
        (if 3 < countChar conversationText qmark then 1 else 0) +
        (if 10 < messages.countP (fun m => decide (now - m.timestamp < oneDayMs))
          then 1 else 0)
      if 3 ≤ score then Priority.high
      else if 1 ≤ score then Priority.medium
      else Priority.low) := by
  simp only [calculatePriorityHeuristic, foldl_add_two_eq_countP, Nat.zero_add,
    List.countP_eq_length_filter]
  split_ifs <;> first | rfl | omega

/-- C10: `cosineSimilarity` is total on real vectors: mismatched lengths
yield 0, a zero norm on either side yields 0, and otherwise the result is
the dot product divided by the provably non-zero product of the two norms
(so the division is never a division by zero). -/
theorem cosineSimilarity_total_spec (a b : List ℝ) :
    (a.length ≠ b.length → cosineSimilarity a b = 0) ∧
    (normSq a = 0 ∨ normSq b = 0 → cosineSimilarity a b = 0) ∧
    (a.length = b.length → normSq a ≠ 0 → normSq b ≠ 0 →
      Real.sqrt (normSq a) * Real.sqrt (normSq b) ≠ 0 ∧
      cosineSimilarity a b =
        dotProduct a b / (Real.sqrt (normSq a) * Real.sqrt (normSq b))) := by
  refine ⟨fun hlen => ?_, fun hzero => ?_, fun hlen ha hb => ?_⟩
  · simp [cosineSimilarity, hlen]
  · have hnorm : Real.sqrt (normSq a) * Real.sqrt (normSq b) = 0 := by
      rcases hzero with h | h
      · rw [h, Real.sqrt_zero, zero_mul]
      · rw [h, Real.sqrt_zero, mul_zero]
    by_cases hlen : a.length ≠ b.length
    · simp [cosineSimilarity, hlen]
    · simp [cosineSimilarity, hlen, hnorm]
  · have hpa : 0 < normSq a := lt_of_le_of_ne (normSq_nonneg a) (Ne.symm ha)
    have hpb : 0 < normSq b := lt_of_le_of_ne (normSq_nonneg b) (Ne.symm hb)
    have hnorm : Real.sqrt (normSq a) * Real.sqrt (normSq b) ≠ 0 :=
      mul_ne_zero (ne_of_gt (Real.sqrt_pos.mpr hpa)) (ne_of_gt (Real.sqrt_pos.mpr hpb))
    refine ⟨hnorm, ?_⟩
    simp [cosineSimilarity, hlen, hnorm]

/-- Witness for C10 at concrete vectors: `[3]` against `[4]` has matching
lengths and non-zero norms, and indeed `cosineSimilarity [3] [4] = 12 / (3 * 4)`. -/
theorem cosineSimilarity_total_spec_witness :
    Real.sqrt (normSq [(3 : ℝ)]) * Real.sqrt (normSq [(4 : ℝ)]) ≠ 0 ∧
    cosineSimilarity [(3 : ℝ)] [(4 : ℝ)] =
      dotProduct [(3 : ℝ)] [(4 : ℝ)] /
        (Real.sqrt (normSq [(3 : ℝ)]) * Real.sqrt (normSq [(4 : ℝ)])) := by
  refine (cosineSimilarity_total_spec [(3 : ℝ)] [(4 : ℝ)]).2.2 rfl ?_ ?_ <;>
    norm_num [normSq]

/-- C4: `semanticSearch` returns the empty sequence on an empty store, at
most `limit` results, every result has similarity strictly above the 0.1
floor and is the brute-force cosine similarity of the query against one of
the stored records, and the result list is sorted by descending similarity. -/
theorem semanticSearch_spec (queryEmbedding : List ℝ) (vectors : List VectorEntry)
    (limit : ℕ) :
    semanticSearch queryEmbedding [] limit = [] ∧
    (semanticSearch queryEmbedding vectors limit).length ≤ limit ∧
    (semanticSearch queryEmbedding vectors limit).Forall (fun r =>
      (1 : ℝ) / 10 < r.similarity ∧
      r ∈ vectors.map (fun v =>
        SearchResult.mk v.content (cosineSimilarity queryEmbedding v.embedding)
          v.metadata)) ∧
    List.Sorted simGe (semanticSearch queryEmbedding vectors limit) := by
  refine ⟨by simp [semanticSearch], ?_, ?_, ?_⟩
  · by_cases h : vectors.isEmpty
    · simp [semanticSearch, h]
    · simp only [semanticSearch, h, Bool.false_eq_true, if_false]
      exact List.length_take_le limit _
  · by_cases h : vectors.isEmpty
    · simp [semanticSearch, h]
    · simp only [semanticSearch, h, Bool.false_eq_true, if_false]
      rw [List.forall_iff_forall_mem]
      intro r hr
      have hmemSort := List.mem_of_mem_take hr
      rw [List.mem_insertionSort] at hmemSort
      refine ⟨?_, List.mem_of_mem_filter hmemSort⟩
      have := List.of_mem_filter hmemSort
      exact of_decide_eq_true this
  · by_cases h : vectors.isEmpty
    · simp [semanticSearch, h]
    · simp only [semanticSearch, h, Bool.false_eq_true, if_false]
      exact (List.sorted_insertionSort simGe _).sublist (List.take_sublist _ _)

/-- Inserting an element that the filter keeps, in front of the first
element it is related to, commutes with filtering when the element is
related to everything the filter keeps. -/
theorem filter_orderedInsert_of_rel {α : Type} (r : α → α → Prop) [DecidableRel r]
    (q : α → Bool) (x : α) (hx : q x = true) (hr : ∀ y, q y = true → r x y) :
    ∀ l : List α, (l.orderedInsert r x).filter q = x :: l.filter q
  | [] => by simp [List.orderedInsert, hx]
  | y :: ys => by
    by_cases hxy : r x y
    · simp [List.orderedInsert, hxy, hx]
    · have hqy : q y = false := by
        cases h : q y
        · rfl
        · exact absurd (hr y h) hxy
      simp only [List.orderedInsert, hxy, if_false]
      rw [List.filter_cons_of_neg (by simp [hqy]),
        filter_orderedInsert_of_rel r q x hx hr ys,
        List.filter_cons_of_neg (by simp [hqy])]

/-- Inserting an element that the filter drops commutes with filtering. -/
theorem filter_orderedInsert_of_not {α : Type} (r : α → α → Prop) [DecidableRel r]
    (q : α → Bool) (x : α) (hx : q x = false) :
    ∀ l : List α, (l.orderedInsert r x).filter q = l.filter q
  | [] => by simp [List.orderedInsert, hx]
  | y :: ys => by
    by_cases hxy : r x y
    · simp [List.orderedInsert, hxy, hx]
    · simp only [List.orderedInsert, hxy, if_false]
      by_cases hqy : q y
      · rw [List.filter_cons_of_pos (by simp [hqy]),
          filter_orderedInsert_of_not r q x hx ys,
          List.filter_cons_of_pos (by simp [hqy])]
      · rw [List.filter_cons_of_neg (by simpa using hqy),
          filter_orderedInsert_of_not r q x hx ys,
          List.filter_cons_of_neg (by simpa using hqy)]

/-- Stability of the insertion sort: filtering by a class whose members are
mutually related in both directions is unchanged by sorting. -/
theorem filter_insertionSort_of_tied {α : Type} (r : α → α → Prop) [DecidableRel r]
    (q : α → Bool) (hq : ∀ x y, q x = true → q y = true → r x y) :
    ∀ l : List α, (List.insertionSort r l).filter q = l.filter q
  | [] => rfl
  | x :: l => by
    rw [List.insertionSort]
    cases hx : q x
    · rw [filter_orderedInsert_of_not r q x hx,
        filter_insertionSort_of_tied r q hq l,
        List.filter_cons_of_neg (by simp [hx])]
    · rw [filter_orderedInsert_of_rel r q x hx (fun y hy => hq x y hx hy),
        filter_insertionSort_of_tied r q hq l,
        List.filter_cons_of_pos (by simp [hx])]

/-- C5: the list returned by `generateDailySummary` is sorted by descending
priority weight (high = 3, medium = 2, low = 1), so adjacent results have
non-increasing weights; and the final sort is a stable permutation — every
priority class appears in exactly its pre-sort (segmentation) order. -/
theorem generateDailySummary_priority_sort_spec :
    (∀ (now : ℤ) (sameDate : ℤ → Bool) (messages : List ProcessedMessage)
      (date : String),
      List.Chain' (fun a b : ConversationSummary =>
        getPriorityWeight b.priority ≤ getPriorityWeight a.priority)
        (generateDailySummary now sameDate messages date)) ∧
    (∀ l : List ConversationSummary,
      (sortByPriorityWeight (fun s => s.priority) l).Perm l ∧
      ∀ p : Priority,
        (sortByPriorityWeight (fun s => s.priority) l).filter
          (fun s => s.priority == p) = l.filter (fun s => s.priority == p)) := by
  constructor
  · intro now sameDate messages date
    have hs : List.Sorted (priorityGe (fun s : ConversationSummary => s.priority))
        (generateDailySummary now sameDate messages date) :=
      List.sorted_insertionSort _ _
    exact hs.chain'
  · intro l
    refine ⟨List.perm_insertionSort _ _, fun p => ?_⟩
    refine filter_insertionSort_of_tied _ _ (fun x y hx hy => ?_) l
    have hx' : x.priority = p := by simpa using hx
    have hy' : y.priority = p := by simpa using hy
    show getPriorityWeight y.priority ≤ getPriorityWeight x.priority
    rw [hx', hy']

/-- The relation that holds between consecutive messages of one
conversation unit: ascending timestamps, gap at most one hour, same room. -/
def segRel (a b : ProcessedMessage) : Prop :=
  a.timestamp ≤ b.timestamp ∧ b.timestamp - a.timestamp ≤ oneHour ∧
    a.roomName = b.roomName

/-- Invariant of the segmentation loop: starting from sorted input, a
current group that is a `segRel` chain whose last element carries the loop
state, and emitted groups that are `segRel` chains, every emitted group is a
`segRel` chain. -/
theorem segLoop_chain (msgs : List ProcessedMessage) :
    ∀ (cur : List ProcessedMessage) (lastTs : ℤ) (lastRoom : String)
      (groups : List (List ProcessedMessage)),
      msgs.Pairwise tsLe →
      cur.Chain' segRel →
      (∀ mlast, cur.getLast? = some mlast →
        mlast.timestamp = lastTs ∧ mlast.roomName = lastRoom ∧
        ∀ m ∈ msgs, lastTs ≤ m.timestamp) →
      (∀ g ∈ groups, g.Chain' segRel) →
      ∀ g ∈ segLoop msgs cur lastTs lastRoom groups, g.Chain' segRel := by
  induction msgs with
  | nil =>
    intro cur lastTs lastRoom groups _ hc _ hg g hgmem
    simp only [segLoop] at hgmem
    by_cases hcur : cur.isEmpty
    · rw [if_pos hcur] at hgmem
      exact hg g hgmem
    · rw [if_neg hcur] at hgmem
      rcases List.mem_append.mp hgmem with h | h
      · exact hg g h
      · rw [List.mem_singleton] at h
        exact h ▸ hc
  | cons m rest ih =>
    intro cur lastTs lastRoom groups hs hc hl hg g hgmem
    simp only [segLoop] at hgmem
    by_cases hcond : oneHour < m.timestamp - lastTs ∨ m.roomName ≠ lastRoom
    · rw [if_pos hcond] at hgmem
      refine ih [m] m.timestamp m.roomName _ hs.of_cons
        (List.chain'_singleton m) ?_ ?_ g hgmem
      · intro mlast hml
        simp only [List.getLast?_singleton, Option.some.injEq] at hml
        subst hml
        exact ⟨rfl, rfl, fun x hx => (List.pairwise_cons.mp hs).1 x hx⟩
      · intro g' hg'
        by_cases hcur : cur.isEmpty
        · rw [if_pos hcur] at hg'
          exact hg g' hg'
        · rw [if_neg hcur] at hg'
          rcases List.mem_append.mp hg' with h | h
          · exact hg g' h
          · rw [List.mem_singleton] at h
            exact h ▸ hc
    · rw [if_neg hcond] at hgmem
      push_neg at hcond
      obtain ⟨hgap, hroom⟩ := hcond
      refine ih (cur ++ [m]) m.timestamp m.roomName groups hs.of_cons ?_ ?_ hg g hgmem
      · rw [List.chain'_append]
        refine ⟨hc, List.chain'_singleton m, ?_⟩
        intro x hx y hy
        simp only [List.head?_cons, Option.mem_def, Option.some.injEq] at hy
        obtain ⟨hts, hrm, hbound⟩ := hl x (Option.mem_def.mp hx)
        subst hy
        exact ⟨hts ▸ hbound m (List.mem_cons_self m rest), hts ▸ hgap,
          hrm.trans hroom.symm⟩
      · intro mlast hml
        rw [List.getLast?_concat] at hml
        obtain rfl : m = mlast := Option.some.inj hml
        exact ⟨rfl, rfl, fun x hx => (List.pairwise_cons.mp hs).1 x hx⟩

/-- C3: every unit emitted by the segmenter has at least 3 messages, its
timestamps are ascending with no inter-message gap above the one-hour
window, and all its messages carry the same room label. -/
theorem groupMessagesByConversation_unit_invariants (messages : List ProcessedMessage) :
    (groupMessagesByConversation messages).Forall (fun g =>
      3 ≤ g.length ∧
      List.Chain' (fun a b => a.timestamp ≤ b.timestamp ∧
        b.timestamp - a.timestamp ≤ oneHour) g ∧
      ∀ a ∈ g, ∀ b ∈ g, a.roomName = b.roomName) := by
  rw [List.forall_iff_forall_mem]
  intro g hg
  obtain ⟨hmem, hlen⟩ := List.mem_filter.mp hg
  have hsorted : (sortMessagesByTimestamp messages).Pairwise tsLe :=
    List.sorted_insertionSort tsLe messages
  have hchain : g.Chain' segRel := by
    refine segLoop_chain _ [] 0 "" [] hsorted List.chain'_nil ?_ ?_ g hmem
    · intro mlast hml
      simp at hml
    · intro g' hg'
      exact absurd hg' (List.not_mem_nil g')
  refine ⟨of_decide_eq_true hlen,
    List.Chain'.imp (fun a b h => ⟨h.1, h.2.1⟩) hchain, ?_⟩
  have hroomchain : g.Chain' (fun a b => a.roomName = b.roomName) :=
    List.Chain'.imp (fun a b h => h.2.2) hchain
  haveI : IsTrans ProcessedMessage (fun a b => a.roomName = b.roomName) :=
    ⟨fun _ _ _ h1 h2 => h1.trans h2⟩
  have hpair : g.Pairwise (fun a b => a.roomName = b.roomName) :=
    List.chain'_iff_pairwise.mp hroomchain
  have hsymm : Symmetric (fun a b : ProcessedMessage => a.roomName = b.roomName) :=
    fun _ _ h => h.symm
  intro a ha b hb
  by_cases hab : a = b
  · rw [hab]
  · exact hpair.forall hsymm ha hb hab

/-- With pairwise-distinct timestamps the timestamp sort of any permutation
of a list is the same list: a strictly sorted permutation is unique. -/
theorem sortMessagesByTimestamp_eq_of_perm {l₁ l₂ : List ProcessedMessage}
    (hp : l₁.Perm l₂)
    (hd : l₁.Pairwise (fun a b => a.timestamp ≠ b.timestamp)) :
    sortMessagesByTimestamp l₁ = sortMessagesByTimestamp l₂ := by
  have hperm : (sortMessagesByTimestamp l₁).Perm (sortMessagesByTimestamp l₂) :=
    (List.perm_insertionSort tsLe l₁).trans
      (hp.trans (List.perm_insertionSort tsLe l₂).symm)
  have hs₁ : (sortMessagesByTimestamp l₁).Pairwise tsLe :=
    List.sorted_insertionSort tsLe l₁
  have hs₂ : (sortMessagesByTimestamp l₂).Pairwise tsLe :=
    List.sorted_insertionSort tsLe l₂
  have hsymm : Symmetric (fun a b : ProcessedMessage => a.timestamp ≠ b.timestamp) :=
    fun _ _ h => h.symm
  have hd₁ : (sortMessagesByTimestamp l₁).Pairwise
      (fun a b => a.timestamp ≠ b.timestamp) :=
    ((List.perm_insertionSort tsLe l₁).pairwise_iff (fun h => hsymm h)).mpr hd
  have hd₂ : (sortMessagesByTimestamp l₂).Pairwise
      (fun a b => a.timestamp ≠ b.timestamp) :=
    ((List.perm_insertionSort tsLe l₂).pairwise_iff (fun h => hsymm h)).mpr
      ((hp.pairwise_iff (fun h => hsymm h)).mp hd)
  have hlt₁ : (sortMessagesByTimestamp l₁).Pairwise
      (fun a b => a.timestamp < b.timestamp) :=
    (hs₁.and hd₁).imp (fun h => lt_of_le_of_ne h.1 h.2)
  have hlt₂ : (sortMessagesByTimestamp l₂).Pairwise
      (fun a b => a.timestamp < b.timestamp) :=
    (hs₂.and hd₂).imp (fun h => lt_of_le_of_ne h.1 h.2)
  haveI : IsAntisymm ProcessedMessage (fun a b => a.timestamp < b.timestamp) :=
    ⟨fun _ _ h1 h2 => absurd (lt_trans h1 h2) (lt_irrefl _)⟩
  exact List.eq_of_perm_of_sorted hperm hlt₁ hlt₂

/-- C2 (amended): when the timestamps of the input are pairwise distinct,
segmentation of any permutation of the list yields the identical ordered
sequence of conversation units. -/
theorem groupMessagesByConversation_perm_invariant {l₁ l₂ : List ProcessedMessage}
    (hp : l₁.Perm l₂)
    (hd : l₁.Pairwise (fun a b => a.timestamp ≠ b.timestamp)) :
    groupMessagesByConversation l₁ = groupMessagesByConversation l₂ := by
  unfold groupMessagesByConversation
  rw [sortMessagesByTimestamp_eq_of_perm hp hd]

/-- First distinct-timestamp witness message. -/
def wmsgA : ProcessedMessage :=
  { id := "a", content := "hello there", sender := "alice", timestamp := 0,
    roomName := "room1", isWhatsApp := false }

/-- Second distinct-timestamp witness message. -/
def wmsgB : ProcessedMessage :=
  { id := "b", content := "hi again", sender := "bob", timestamp := 1,
    roomName := "room1", isWhatsApp := false }

/-- Witness for the amended C2 at a concrete permutation with distinct
timestamps. -/
theorem groupMessagesByConversation_perm_invariant_witness :
    List.Perm [wmsgA, wmsgB] [wmsgB, wmsgA] ∧
    List.Pairwise (fun a b : ProcessedMessage => a.timestamp ≠ b.timestamp)
      [wmsgA, wmsgB] ∧
    groupMessagesByConversation [wmsgA, wmsgB] =
      groupMessagesByConversation [wmsgB, wmsgA] :=
  ⟨List.Perm.swap wmsgB wmsgA [], by decide,
    groupMessagesByConversation_perm_invariant (List.Perm.swap wmsgB wmsgA [])
      (by decide)⟩

/-- First tied-timestamp counterexample message. -/
def cmsgA : ProcessedMessage :=
  { id := "a", content := "alpha", sender := "s", timestamp := 0,
    roomName := "room1", isWhatsApp := false }

/-- Second tied-timestamp counterexample message. -/
def cmsgB : ProcessedMessage :=
  { id := "b", content := "beta", sender := "s", timestamp := 0,
    roomName := "room1", isWhatsApp := false }

/-- Third tied-timestamp counterexample message. -/
def cmsgC : ProcessedMessage :=
  { id := "c", content := "gamma", sender := "s", timestamp := 0,
    roomName := "room1", isWhatsApp := false }

/-- C2 counterexample: with two or more messages sharing one timestamp the
segmentation is not order-independent — the stable sort keeps tied messages
in input order, so permuting the input permutes the messages inside the
emitted unit. -/
theorem groupMessagesByConversation_order_dependent_counterexample :
    List.Perm [cmsgA, cmsgB, cmsgC] [cmsgB, cmsgA, cmsgC] ∧
    groupMessagesByConversation [cmsgA, cmsgB, cmsgC] ≠
      groupMessagesByConversation [cmsgB, cmsgA, cmsgC] := by
  exact ⟨List.Perm.swap cmsgB cmsgA [cmsgC], by decide⟩

/-- Every sentiment value is one of the three defined labels. -/
theorem sentiment_mem_enum (t : Sentiment) :
    t = Sentiment.positive ∨ t = Sentiment.neutral ∨ t = Sentiment.negative := by
  cases t <;> simp

/-- Every priority value is one of the three defined labels. -/
theorem priority_mem_enum (t : Priority) :
    t = Priority.high ∨ t = Priority.medium ∨ t = Priority.low := by
  cases t <;> simp

/-- C1: the zero-provider `generateDailySummary` is a total function (the
embedded form of the never-throws contract) and every returned summary has
every field computed by the Heuristic Engine from the room's messages, with
sentiment and priority among the defined labels. -/
theorem generateDailySummary_all_heuristic (now : ℤ) (sameDate : ℤ → Bool)
    (messages : List ProcessedMessage) (date : String) :
    (generateDailySummary now sameDate messages date).Forall (fun s =>
      (s.sentiment = Sentiment.positive ∨ s.sentiment = Sentiment.neutral ∨
        s.sentiment = Sentiment.negative) ∧
      (s.priority = Priority.high ∨ s.priority = Priority.medium ∨
        s.priority = Priority.low) ∧
      ∃ rms : List ProcessedMessage, rms ≠ [] ∧
        (s.roomName, rms) ∈ groupMessagesByRoom sameDate messages ∧
        s.date = date ∧
        s.messageCount = rms.length ∧
        s.participants = extractParticipants rms ∧
        s.summary = generateFallbackSummary rms ∧
        s.keyTopics = generateFallbackTopics rms ∧
        s.sentiment = generateSentimentAnalysis (formatMessagesForAI rms) ∧
        s.priority = calculatePriorityHeuristic (formatMessagesForAI rms) rms now ∧
        s.insights = generateContextualInsights (formatMessagesForAI rms) rms ∧
        s.patterns = analyzeConversationPatterns rms ∧
        s.actionItems = extractActionItemsHeuristic (formatMessagesForAI rms)) := by
  rw [List.forall_iff_forall_mem]
  intro s hs
  simp only [generateDailySummary, sortByPriorityWeight,
    List.mem_insertionSort] at hs
  obtain ⟨g, hgmem, rfl⟩ := List.mem_map.mp hs
  obtain ⟨hgrooms, hgne⟩ := List.mem_filter.mp hgmem
  have hne : g.2 ≠ [] := by
    simp only [Bool.not_eq_eq_eq_not, Bool.not_true, List.isEmpty_eq_false] at hgne
    exact hgne
  exact ⟨sentiment_mem_enum _, priority_mem_enum _,
    g.2, hne, hgrooms, rfl, rfl, rfl, rfl, rfl, rfl, rfl, rfl, rfl, rfl⟩

/-- The heuristic topic list never exceeds 5 entries. -/
theorem generateTopicsNaturally_length_le (text : String) :
    (generateTopicsNaturally text).length ≤ 5 := by
  simp only [generateTopicsNaturally, List.length_map]
  exact List.length_take_le _ _

/-- The heuristic insight list never exceeds 3 entries. -/
theorem generateContextualInsights_length_le (conversationText : String)
    (messages : List ProcessedMessage) :
    (generateContextualInsights conversationText messages).length ≤ 3 := by
  simp only [generateContextualInsights]
  exact List.length_take_le _ _

/-- The heuristic pattern list never exceeds 3 entries. -/
theorem analyzeConversationPatterns_length_le (messages : List ProcessedMessage) :
    (analyzeConversationPatterns messages).length ≤ 3 := by
  rw [analyzeConversationPatterns]
  by_cases h : messages.length < 2
  · simp [h]
  · simp only [h, if_false]
    exact List.length_take_le _ _

/-- The heuristic action item list never exceeds 3 entries. -/
theorem extractActionItemsHeuristic_length_le (conversationText : String) :
    (extractActionItemsHeuristic conversationText).length ≤ 3 := by
  simp only [extractActionItemsHeuristic]
  exact List.length_take_le _ _

/-- C8 (amended): on the zero-provider (all-heuristic) path every returned
summary respects the field bounds — at most 5 key topics and at most 3
insights, patterns and action items; on the Gemini merge path the arrays of
the parsed provider response are copied into the result without truncation,
so the bounds there hold only if the provider response already respects
them. -/
theorem analysisResult_field_bounds :
    (∀ (now : ℤ) (sameDate : ℤ → Bool) (messages : List ProcessedMessage)
      (date : String),
      (generateDailySummary now sameDate messages date).Forall (fun s =>
        s.keyTopics.length ≤ 5 ∧ s.insights.length ≤ 3 ∧
        s.patterns.length ≤ 3 ∧ s.actionItems.length ≤ 3)) ∧
    (∀ (sameDate : ℤ → Bool) (gemini : String → JValue)
      (messages : List ProcessedMessage) (date : String),
      (generateDailySummaryGeminiPath sameDate gemini messages date).Forall
        (fun s => ∃ t : String,
          s.keyTopics = jGetArr (gemini t) "keyTopics" ∧
          s.insights = jGetArr (gemini t) "insights" ∧
          s.patterns = jGetArr (gemini t) "patterns" ∧
          s.actionItems = jGetArr (gemini t) "actionItems")) := by
  constructor
  · intro now sameDate messages date
    rw [List.forall_iff_forall_mem]
    intro s hs
    simp only [generateDailySummary, sortByPriorityWeight,
      List.mem_insertionSort] at hs
    obtain ⟨g, _, rfl⟩ := List.mem_map.mp hs
    exact ⟨generateTopicsNaturally_length_le _,
      generateContextualInsights_length_le _ _,
      analyzeConversationPatterns_length_le _,
      extractActionItemsHeuristic_length_le _⟩
  · intro sameDate gemini messages date
    rw [List.forall_iff_forall_mem]
    intro s hs
    simp only [generateDailySummaryGeminiPath, sortByPriorityWeight,
      List.mem_insertionSort] at hs
    obtain ⟨g, _, rfl⟩ := List.mem_map.mp hs
    exact ⟨formatMessagesForAI g.2, rfl, rfl, rfl, rfl⟩

/-- A parsed Gemini response carrying six key topics. -/
def cexParsedResponse : JValue :=
  JValue.obj [("keyTopics",
    JValue.arr [JValue.str "t1", JValue.str "t2", JValue.str "t3",
      JValue.str "t4", JValue.str "t5", JValue.str "t6"])]

/-- A valid concrete message for the counterexample conversation. -/
def cexMessage : ProcessedMessage :=
  { id := "m1", content := "hello there friend", sender := "alice",
    timestamp := 0, roomName := "room1", isWhatsApp := false }

/-- C8 counterexample: when Gemini answers with a JSON object whose
`keyTopics` array has six entries, the result merged by
`generateDailySummary` carries six key topics, violating the claimed
`keyTopics ≤ 5` bound on the provider-merge path. -/
theorem analysisResult_field_bounds_counterexample :
    ((generateDailySummaryGeminiPath (fun _ => true) (fun _ => cexParsedResponse)
        [cexMessage] "2024-01-01").map (fun s => s.keyTopics.length)) = [6] ∧
    ¬(6 ≤ 5) := by
  exact ⟨by decide, by decide⟩

/-- C6: inserting a batch grows `getStats().totalMessages` by exactly the
number of batch entries that pass the validity filter (trimmed content of
length at least 3, not starting with `!`, not containing `bridged` or
`WhatsApp bridge bot`), and every stored record is either pre-existing or
stems from a valid batch entry — rejected entries are never stored. -/
theorem addMessages_getStats_roundtrip (embed : List String → List (List ℝ))
    (vectors : List VectorEntry) (messages : List RawMessage) :
    (getStats (addMessages embed vectors messages)).totalMessages =
      (getStats vectors).totalMessages +
        (messages.filter (fun m => isValidMessage m.content)).length ∧
    (addMessages embed vectors messages).Forall (fun e =>
      e ∈ vectors ∨ ∃ m, m ∈ messages ∧ isValidMessage m.content = true ∧
        e.id = m.id ∧ e.content = m.content) := by
  constructor
  · by_cases h : (messages.filter (fun m => isValidMessage m.content)).isEmpty
    · rw [List.isEmpty_iff] at h
      simp [addMessages, getStats, h]
    · simp only [addMessages, getStats, h, Bool.false_eq_true, if_false,
        List.length_append, List.length_map, List.enum_length]
  · rw [List.forall_iff_forall_mem]
    intro e he
    by_cases h : (messages.filter (fun m => isValidMessage m.content)).isEmpty
    · simp only [addMessages, h, if_true] at he
      exact Or.inl he
    · simp only [addMessages, h, Bool.false_eq_true, if_false] at he
      rcases List.mem_append.mp he with hv | hnew
      · exact Or.inl hv
      · obtain ⟨p, hp, rfl⟩ := List.mem_map.mp hnew
        obtain ⟨i, m⟩ := p
        obtain ⟨_, hm⟩ := List.mem_enum hp
        have hmem : m ∈ messages.filter (fun m => isValidMessage m.content) :=
          hm ▸ List.getElem_mem _
        exact Or.inr ⟨m, (List.mem_filter.mp hmem).1, (List.mem_filter.mp hmem).2,
          rfl, rfl⟩

/-- C9 (amended): the orchestrator's Hugging Face adapter performs exactly
one fetch per call and sets the sticky `hfFailed` flag on the first failed
attempt — there is no retry loop there; the 3-attempt exponential-backoff
retry (backoff `2 ^ attempt × 200` ms after each failed attempt) lives only
in the server-side Gemini API-route adapter `callGeminiWithRetry`, which
returns the first successful attempt among the first 3 and fails only after
all 3 attempts have failed. -/
theorem provider_retry_spec :
    (∀ (hfFailed : Bool) (response : HFOutcome),
      (callHuggingFaceAPI hfFailed response).fetchAttempts = 1 ∧
      ((callHuggingFaceAPI hfFailed response).outcome.isOk = false →
        (callHuggingFaceAPI hfFailed response).hfFailed = true)) ∧
    (∀ (oracle : ℕ → Except String String) (i : ℕ), i < 3 →
      (∀ j, j < i → (oracle j).isOk = false) → (oracle i).isOk = true →
      callGeminiWithRetry oracle =
        (oracle i, (List.range i).map (fun j => geminiBackoffMs (j + 1)))) ∧
    (∀ oracle : ℕ → Except String String,
      (∀ i, i < 3 → (oracle i).isOk = false) →
      (callGeminiWithRetry oracle).1.isOk = false ∧
      (callGeminiWithRetry oracle).2 =
        [geminiBackoffMs 1, geminiBackoffMs 2, geminiBackoffMs 3]) := by
  refine ⟨fun hfFailed response => ?_, fun oracle i hi hj hok => ?_, fun oracle hall => ?_⟩
  · cases response <;> simp [callHuggingFaceAPI, Except.isOk, Except.toBool]
  · interval_cases i
    · cases h0 : oracle 0 with
      | error e => rw [h0] at hok; simp [Except.isOk, Except.toBool] at hok
      | ok v =>
        simp [callGeminiWithRetry, callGeminiWithRetryGo, h0]
    · have h0 := hj 0 (by omega)
      cases h0' : oracle 0 with
      | ok v => rw [h0'] at h0; simp [Except.isOk, Except.toBool] at h0
      | error e =>
        cases h1 : oracle 1 with
        | error e1 => rw [h1] at hok; simp [Except.isOk, Except.toBool] at hok
        | ok v =>
          simp [callGeminiWithRetry, callGeminiWithRetryGo, h0', h1,
            List.range_succ]
    · have h0 := hj 0 (by omega)
      have h1 := hj 1 (by omega)
      cases h0' : oracle 0 with
      | ok v => rw [h0'] at h0; simp [Except.isOk, Except.toBool] at h0
      | error e0 =>
        cases h1' : oracle 1 with
        | ok v => rw [h1'] at h1; simp [Except.isOk, Except.toBool] at h1
        | error e1 =>
          cases h2 : oracle 2 with
          | error e2 => rw [h2] at hok; simp [Except.isOk, Except.toBool] at hok
          | ok v =>
            simp [callGeminiWithRetry, callGeminiWithRetryGo, h0', h1', h2,
              List.range_succ]
  · have h0 := hall 0 (by omega)
    have h1 := hall 1 (by omega)
    have h2 := hall 2 (by omega)
    cases h0' : oracle 0 with
    | ok v => rw [h0'] at h0; simp [Except.isOk, Except.toBool] at h0
    | error e0 =>
      cases h1' : oracle 1 with
      | ok v => rw [h1'] at h1; simp [Except.isOk, Except.toBool] at h1
      | error e1 =>
        cases h2' : oracle 2 with
        | ok v => rw [h2'] at h2; simp [Except.isOk, Except.toBool] at h2
        | error e2 =>
          simp [callGeminiWithRetry, callGeminiWithRetryGo, h0', h1', h2',
            Except.isOk, Except.toBool]

/-- Witness for the amended C9: with a provider that answers 429 the HF
adapter records one fetch and a set failure flag, and with an
always-failing Gemini oracle the API-route adapter sleeps the documented
backoffs 400, 800 and 1600 ms before giving up. -/
theorem provider_retry_spec_witness :
    ((callHuggingFaceAPI false (HFOutcome.httpError 429)).fetchAttempts = 1 ∧
      ((callHuggingFaceAPI false (HFOutcome.httpError 429)).outcome.isOk = false →
        (callHuggingFaceAPI false (HFOutcome.httpError 429)).hfFailed = true)) ∧
    ((callGeminiWithRetry (fun _ => Except.error "429")).1.isOk = false ∧
      (callGeminiWithRetry (fun _ => Except.error "429")).2 =
        [geminiBackoffMs 1, geminiBackoffMs 2, geminiBackoffMs 3]) :=
  ⟨provider_retry_spec.1 false (HFOutcome.httpError 429),
    provider_retry_spec.2.2 (fun _ => Except.error "429")
      (fun _ _ => rfl)⟩

/-- C9 counterexample: against the claim that each configured provider is
attempted up to 3 times before the stage is marked failed, the orchestrator
adapter cited by the claim marks the provider failed after exactly one
failed fetch. -/
theorem provider_retry_counterexample :
    (callHuggingFaceAPI false (HFOutcome.httpError 429)).fetchAttempts = 1 ∧
    (callHuggingFaceAPI false (HFOutcome.httpError 429)).hfFailed = true ∧
    (1 : ℕ) ≠ 3 := by
  exact ⟨rfl, rfl, by decide⟩

/-- Sanity check that the segmentation invariants are not vacuous: three
same-room, same-hour messages form exactly one unit of size 3. -/
theorem groupMessagesByConversation_nonempty_sanity :
    (groupMessagesByConversation [cmsgA, cmsgB, cmsgC]).map (fun g => g.length) =
      [3] := by
  decide

/-- Sanity check that the zero-provider summary pipeline is not vacuous:
two messages of one room on the target date produce exactly one summary. -/
theorem generateDailySummary_nonempty_sanity :
    (generateDailySummary 0 (fun _ => true) [wmsgA, wmsgB] "2024-01-01").length =
      1 := by
  decide
